import Mathlib

/-!
# Verification of the supersplat SAM2 segmentation pipeline

Shallow embedding of the segmentation inference pipeline of the
Interaptix/supersplat repository:

* `src/src/segmentation/webgpu/image-utils.ts` — pure tensor/mask helpers,
* `src/unnamed/part_004` (`sam2-core.ts`) — the `SAM2Core` inference engine,
* `src/src/segmentation/webgpu/sam2-worker.ts` — the worker message loop,
* `src/src/segmentation/webgpu/webgpu-provider.ts` — the `WebGPUProvider`
  lifecycle / iterative-refinement state and the model loader,
* `src/src/segmentation/provider.ts` (`SegmentationService`) — pending-mask
  apply/cancel policy,
* `src/src/segmentation/webgpu/capability-check.ts` — the capability probe.

Modelling conventions:

* JS `number` / `Float32Array` values (logits, IoU scores) are modelled as
  rationals `ℚ`.  The code only ever compares these values (`>`, threshold
  tests), so any linear order is faithful for non-NaN floats; this is noted
  again at every place where it matters.
* Byte arrays (`Uint8Array` masks, RGBA images) are `List ℕ`.
* JS `Map` objects are association lists keyed by `ℕ` (image ids of the form
  `img_${n}` are identified with their counter value `n`, which is faithful
  because the ids are opaque keys).
* Canvas raster resampling (`drawImage` bilinear interpolation) is not
  specified by the source; it is an abstract `Resampler` function parameter.
  Everything the claims say about `resizeMask` (length, binariness,
  determinism) is independent of the interpolation kernel.
* Out-of-bounds reads of JS typed arrays yield `undefined`; the comparison
  `undefined > t` is `false`, which is modelled via `Option` lookups.
-/

/-- `SAM2_INPUT_SIZE` from image-utils.ts. -/
def SAM2_INPUT_SIZE : ℕ := 1024

/-- A prompt point (`SAM2Point` in sam2-core.ts): coordinates and fg/bg type. -/
structure SAM2Point where
  x : ℚ
  y : ℚ
  isFg : Bool
  deriving Repr, DecidableEq

/-- `scalePoint` from image-utils.ts: rescale a coordinate pair from the
original image space to the 1024×1024 SAM2 input space. -/
def scalePoint (x y : ℚ) (originalWidth originalHeight : ℚ) : ℚ × ℚ :=
  ((x / originalWidth) * (SAM2_INPUT_SIZE : ℚ),
   (y / originalHeight) * (SAM2_INPUT_SIZE : ℚ))

/-- Data of the `point_coords` tensor (`createPointCoordsTensorWithOrt`):
the flattened `[1, N, 2]` float array `x₀, y₀, x₁, y₁, …`. -/
def createPointCoordsData (points : List SAM2Point) : List ℚ :=
  points.flatMap fun p => [p.x, p.y]

/-- Data of the `point_labels` tensor (`createPointLabelsTensorWithOrt`):
1.0 for a foreground point, 0.0 for a background point. -/
def createPointLabelsData (points : List SAM2Point) : List ℚ :=
  points.map fun p => if p.isFg then 1 else 0

/-- Data of the `mask_input` tensor (`createMaskInputTensorWithOrt`):
the previous mask's logits if present, otherwise `new Float32Array(256*256)`,
i.e. 65536 zeros. -/
def createMaskInputData (maskInput : Option (List ℚ)) : List ℚ :=
  maskInput.getD (List.replicate (256 * 256) 0)

/-- Data of the `has_mask_input` tensor (`createHasMaskTensorWithOrt`). -/
def createHasMaskData (hasMask : Bool) : ℚ :=
  if hasMask then 1 else 0

/-- The decoder's mask output tensor `[1, numMasks, height, width]`
(`masks` / `low_res_masks`): flattened data plus the dims that
`processMaskLogits` reads. -/
structure Tensor4 where
  data : List ℚ
  numMasks : ℕ
  height : ℕ
  width : ℕ
  deriving Repr

/-- A logit read `data[k] > threshold` as the JS code performs it:
an out-of-bounds read gives `undefined`, and `undefined > t` is `false`. -/
def logitAboveThreshold (data : List ℚ) (k : ℕ) (threshold : ℚ) : Bool :=
  match data.get? k with
  | some v => decide (v > threshold)
  | none => false

/-- Result record of `processMaskLogits`. -/
structure ProcessedMask where
  mask : List ℕ
  width : ℕ
  height : ℕ
  deriving Repr

/-- `processMaskLogits` from image-utils.ts: slice the `maskIndex`-th
`height×width` plane of the logits tensor and threshold it to a 0/255 byte
mask.  An out-of-range `maskIndex` is clamped to `[0, numMasks-1]`
(`Math.max(0, Math.min(maskIndex, numMasks - 1))`; for `numMasks = 0` the JS
clamp gives 0, as does `ℕ` subtraction). -/
def processMaskLogits (logits : Tensor4) (maskIndex : ℕ) (threshold : ℚ) :
    ProcessedMask :=
  let maskSize := logits.height * logits.width
  let idx := if maskIndex ≥ logits.numMasks
    then min maskIndex (logits.numMasks - 1)
    else maskIndex
  { mask := (List.range maskSize).map fun i =>
      if logitAboveThreshold logits.data (idx * maskSize + i) threshold
      then 255 else 0,
    width := logits.width,
    height := logits.height }

/-- Abstract canvas resampler standing for the `drawImage` bilinear rescale in
`resizeMask` (image-utils.ts): given the source mask bytes, source dims,
target dims and a target pixel index, it yields the interpolated red-channel
byte that `dstImageData.data[i * 4]` holds.  The browser's interpolation
kernel is unspecified by the source; all claims proved below hold for every
deterministic kernel. -/
structure Resampler where
  sample : List ℕ → ℕ → ℕ → ℕ → ℕ → ℕ → ℕ

/-- `resizeMask` from image-utils.ts: bilinear upscale (abstract `Resampler`),
then re-threshold each byte at 127 (`> 127 ? 255 : 0`). -/
def resizeMask (rs : Resampler) (mask : List ℕ)
    (maskWidth maskHeight targetWidth targetHeight : ℕ) : List ℕ :=
  (List.range (targetWidth * targetHeight)).map fun i =>
    if rs.sample mask maskWidth maskHeight targetWidth targetHeight i > 127
    then 255 else 0

/-- The selection loop of `SAM2Core.decode` generalised: scan `l` from index
`i` with current best index `best` and current max `l.getD best 0`, taking a
new best only on a strictly larger value (`iouData[i] > maxIoU`). -/
def argmaxGo (l : List ℚ) (i best : ℕ) (m : ℚ) : ℕ :=
  if h : i < l.length then
    if l.getD i 0 > m then argmaxGo l (i + 1) i (l.getD i 0)
    else argmaxGo l (i + 1) best m
  else best
  termination_by l.length - i

/-- `bestMaskIndex` selection in `SAM2Core.decode`: 0 when `iou_predictions`
is absent or has a single entry; otherwise the strict-improvement scan
starting from `maxIoU = -Infinity`, whose first iteration always takes index
0 (every non-NaN float exceeds `-Infinity`), so it equals
`argmaxGo l 1 0 (l.getD 0 0)`. -/
def bestMaskIndexOf (iou : Option (List ℚ)) : ℕ :=
  match iou with
  | none => 0
  | some l => if l.length > 1 then argmaxGo l 1 0 (l.getD 0 0) else 0

/-- `SAM2MaskCandidate` from sam2-core.ts. -/
structure MaskCandidate where
  index : ℕ
  iouScore : ℚ
  mask : List ℕ
  width : ℕ
  height : ℕ
  logits : List ℚ
  deriving Repr

/-- `SAM2Result` from sam2-core.ts (timing omitted: wall-clock values).  In
the model `logits` and `allMasks` are always present, as `decode` always sets
them. -/
structure SAM2Result where
  mask : List ℕ
  width : ℕ
  height : ℕ
  logits : List ℚ
  allMasks : List MaskCandidate
  selectedMaskIndex : ℕ
  deriving Repr

/-- The logits-slice extraction in `SAM2Core.decode`
(`for i: selectedMaskLogits[i] = fullLogits[offset + i]`).  Out-of-bounds
reads would store NaN; the default 0 here is only reachable when the tensor
data is shorter than its dims claim, which the theorems below exclude by
well-formedness hypotheses. -/
def extractLogits (data : List ℚ) (offset size : ℕ) : List ℚ :=
  (List.range size).map fun i => data.getD (offset + i) 0

/-- Decoder output as `SAM2Core.decode` reads it: the mask tensor
(`masks ?? low_res_masks`) and the optional IoU data
(`iou_predictions ?? iou_pred`). -/
structure DecoderOutput where
  maskTensor : Tensor4
  iou : Option (List ℚ)

/-- The output-processing tail of `SAM2Core.decode`: select the best mask by
IoU, threshold and resize it, extract the selected logits slice, and build
the `allMasks` candidate list (`numMasks = iouData ? iouData.length : 1`,
`iouScore = iouData ? iouData[i] : 1.0`). -/
def decodeProcess (rs : Resampler) (out : DecoderOutput)
    (originalWidth originalHeight : ℕ) : SAM2Result :=
  let t := out.maskTensor
  let bestMaskIndex := bestMaskIndexOf out.iou
  let pm := processMaskLogits t bestMaskIndex 0
  let maskSize := pm.width * pm.height
  let selectedMaskLogits := extractLogits t.data (bestMaskIndex * maskSize) maskSize
  let finalMask := resizeMask rs pm.mask pm.width pm.height originalWidth originalHeight
  let numMasks := match out.iou with | some l => l.length | none => 1
  let allMasks := (List.range numMasks).map fun i =>
    { index := i,
      iouScore := match out.iou with | some l => l.getD i 0 | none => 1,
      mask := resizeMask rs (processMaskLogits t i 0).mask pm.width pm.height
        originalWidth originalHeight,
      width := originalWidth,
      height := originalHeight,
      logits := extractLogits t.data (i * maskSize) maskSize : MaskCandidate }
  { mask := finalMask,
    width := originalWidth,
    height := originalHeight,
    logits := selectedMaskLogits,
    allMasks := allMasks,
    selectedMaskIndex := bestMaskIndex }

/-- The decoder feed tensors built by `SAM2Core.decode` that the claims
constrain (`image_embed` and the high-res features are opaque cached tensors
and are left abstract). -/
structure DecodeFeeds where
  pointCoords : List ℚ
  pointLabels : List ℚ
  maskInput : List ℚ
  hasMaskInput : ℚ
  deriving Repr

/-- `SAM2Core.decode` (tensor-building and output-processing): scale the
points, build the decoder feeds — `mask_input` from `previousMask ?? zeros`,
`has_mask_input` from its presence — run the decoder (abstract
`runDecoder`), and post-process its output.  Returns the feeds alongside the
result so the theorems can speak about what was passed to the decoder. -/
def sam2Decode (rs : Resampler) (runDecoder : DecodeFeeds → DecoderOutput)
    (points : List SAM2Point) (originalWidth originalHeight : ℕ)
    (previousMask : Option (List ℚ)) : DecodeFeeds × SAM2Result :=
  let scaledPoints := points.map fun p =>
    let s := scalePoint p.x p.y (originalWidth : ℚ) (originalHeight : ℚ)
    { p with x := s.1, y := s.2 }
  let feeds : DecodeFeeds :=
    { pointCoords := createPointCoordsData scaledPoints,
      pointLabels := createPointLabelsData scaledPoints,
      maskInput := createMaskInputData previousMask,
      hasMaskInput := createHasMaskData previousMask.isSome }
  let out := runDecoder feeds
  (feeds, decodeProcess rs out originalWidth originalHeight)

/-- The spec's mask-selection rule (§4.1 step 5): `r` is the argmax of `l`
with ties broken toward the smallest index. -/
def IsArgmaxSmallestTie (l : List ℚ) (r : ℕ) : Prop :=
  r < l.length ∧ (∀ j < l.length, l.getD j 0 ≤ l.getD r 0) ∧
    ∀ j < r, l.getD j 0 < l.getD r 0

/-! ## Association-list model of JS `Map` objects (keyed by image id) -/

/-- `Map.get(k)` on an association list. -/
def keyLookup {α : Type} (m : List (ℕ × α)) (k : ℕ) : Option α :=
  (m.find? fun e => e.1 == k).map Prod.snd

/-- `Map.set(k, v)` on an association list: later writes shadow earlier
ones.  The JS `Map` iteration order is never observed by the code. -/
def keyInsert {α : Type} (m : List (ℕ × α)) (k : ℕ) (v : α) : List (ℕ × α) :=
  (k, v) :: m.filter fun e => e.1 != k

/-! ## SAM2Core engine state and `encodeImage` -/

/-- Output of one encoder run as `SAM2Core.encodeImage` reads it:
`image_embed` plus the optional high-resolution feature tensors.  The tensor
values themselves are opaque (`Emb`). -/
structure EncoderOutput (Emb : Type) where
  imageEmbed : Option Emb
  highResFeats0 : Option Emb
  highResFeats1 : Option Emb

/-- The mutable state of a `SAM2Core` instance that `encodeImage` touches:
the initialization flag (both sessions created) and the three per-image-id
caches. -/
structure EngineState (Emb : Type) where
  initialized : Bool
  imageEmbeddings : List (ℕ × Emb)
  highResFeatures : List (ℕ × List Emb)
  cachedImageData : List (ℕ × (List ℕ × ℕ × ℕ))

/-- `SAM2Core.encodeImage`: throw if not initialized; return 0 ms without
touching anything on a cache hit; otherwise run the encoder (abstract
`encoder`, wall-clock duration `elapsed`), cache the raw image, the
embeddings (when `image_embed` is present) and the high-res features (when
any is present).  The result triple is (state, reported time in ms,
whether the encoder ran). -/
def encodeImage {Emb : Type} (encoder : List ℕ → ℕ → ℕ → EncoderOutput Emb)
    (elapsed : ℚ) (st : EngineState Emb) (imageId : ℕ)
    (imageData : List ℕ) (width height : ℕ) :
    Except String (EngineState Emb × ℚ × Bool) :=
  if !st.initialized then .error "SAM2 not initialized"
  else if (keyLookup st.imageEmbeddings imageId).isSome then .ok (st, 0, false)
  else
    let out := encoder imageData width height
    let st1 := { st with
      cachedImageData := keyInsert st.cachedImageData imageId (imageData, width, height) }
    let st2 := match out.imageEmbed with
      | some e => { st1 with imageEmbeddings := keyInsert st1.imageEmbeddings imageId e }
      | none => st1
    let highResFeats :=
      (match out.highResFeats0 with | some f => [f] | none => []) ++
      (match out.highResFeats1 with | some f => [f] | none => [])
    let st3 := if highResFeats.length > 0
      then { st2 with highResFeatures := keyInsert st2.highResFeatures imageId highResFeats }
      else st2
    .ok (st3, elapsed, true)

/-! ## WebGPUProvider state, `initialize`, `startNewSession`,
`segmentSingleView` -/

/-- `ProviderState` from webgpu-provider.ts. -/
inductive ProviderState
  | idle
  | loadingModels
  | initializing
  | ready
  | processing
  | errored
  deriving Repr, DecidableEq

/-- `ExecutionProvider` from sam2-core.ts. -/
inductive ExecutionProvider
  | webgpu
  | wasm
  deriving Repr, DecidableEq

/-- The `WebGPUProvider` fields the verified operations touch. -/
structure ProviderModel where
  state : ProviderState
  currentProvider : Option ExecutionProvider
  previousMaskLogits : List (ℕ × List ℚ)
  currentImageId : Option ℕ
  imageIdCounter : ℕ

/-- Environment of one `WebGPUProvider.initialize()` run: whether
`loadAllModels` succeeds (and, on failure, whether it failed with an
`AbortError`), and the outcome of worker creation + `initializeWorker`. -/
structure InitEnv where
  loadModelsOk : Bool
  loadAborted : Bool
  workerInit : Except String ExecutionProvider

/-- `WebGPUProvider.initialize()`: return the current provider when already
`ready`; throw `'Initialization already in progress'` when a call is in
flight (state `loading-models` or `initializing`); otherwise run
load → create worker → initialize worker, ending `ready` on success and
`errored` on failure (`AbortError` is rethrown as `'Initialization
aborted'`).  The `this.currentProvider!` non-null assertion on the `ready`
path is modelled by returning the stored optional field. -/
def initializeProvider (env : InitEnv) (st : ProviderModel) :
    ProviderModel × Except String (Option ExecutionProvider) :=
  if st.state = .ready then (st, .ok st.currentProvider)
  else if st.state = .loadingModels ∨ st.state = .initializing then
    (st, .error "Initialization already in progress")
  else if !env.loadModelsOk then
    ({ st with state := .errored },
     .error (if env.loadAborted then "Initialization aborted" else "model load failed"))
  else
    match env.workerInit with
    | .error msg => ({ st with state := .errored }, .error msg)
    | .ok p =>
      ({ st with state := .ready, currentProvider := some p }, .ok (some p))

/-- `WebGPUProvider.startNewSession()`: clear all previous-mask logits and
mint a fresh image id from the counter. -/
def startNewSession (st : ProviderModel) : ProviderModel :=
  { st with
    previousMaskLogits := [],
    imageIdCounter := st.imageIdCounter + 1,
    currentImageId := some (st.imageIdCounter + 1) }

/-- `SegmentationRequest` (types.ts) as `segmentSingleView` consumes it. -/
structure SegRequest where
  image : List ℕ
  width : ℕ
  height : ℕ
  points : List SAM2Point

/-- `SegmentationResponse` as `segmentSingleView` builds it from the worker's
`segmented` message. -/
structure SegResponse where
  width : ℕ
  height : ℕ
  mask : List ℕ
  logits : List ℚ
  allMasks : List MaskCandidate
  selectedMaskIndex : ℕ

/-- The session auto-creation at the top of `segmentSingleView` /
`preEncodeImage`: reuse `currentImageId`, or mint one from the counter when
no session was started. -/
def ensureSession (st : ProviderModel) : ProviderModel × ℕ :=
  match st.currentImageId with
  | some id => (st, id)
  | none =>
    let n := st.imageIdCounter + 1
    ({ st with imageIdCounter := n, currentImageId := some n }, n)

/-- The body of `segmentSingleView` once the provider is `ready` (see
`segmentSingleView` below for the guard and the docs). -/
def segmentCore (rs : Resampler) (runDecoder : DecodeFeeds → DecoderOutput)
    (st : ProviderModel) (req : SegRequest) :
    ProviderModel × DecodeFeeds × SegResponse :=
  let st1 := (ensureSession st).1
  let imageId := (ensureSession st).2
  let previousMask := keyLookup st1.previousMaskLogits imageId
  let dr := sam2Decode rs runDecoder req.points req.width req.height previousMask
  let feeds := dr.1
  let result := dr.2
  let maskSize := 256 * 256
  let bestMaskLogits :=
    if result.logits.length = maskSize then result.logits
    else if result.logits.length ≥ maskSize then result.logits.take maskSize
    else List.replicate maskSize 0
  let st2 := { st1 with
    previousMaskLogits := keyInsert st1.previousMaskLogits imageId bestMaskLogits,
    state := .ready }
  (st2, feeds,
    { width := result.width, height := result.height, mask := result.mask,
      logits := result.logits, allMasks := result.allMasks,
      selectedMaskIndex := result.selectedMaskIndex })

/-- `WebGPUProvider.segmentSingleView` in the `ready` state (the `idle`
auto-initialize entry is `initializeProvider` above; any other state throws
`'Provider not ready'`): ensure a session id exists, look up the previous
mask logits for it, run the worker `segment` (whose decode stage is
`sam2Decode`; the encode stage only populates the opaque embedding caches),
then store the best mask's logits for the next refinement round — the exact
source rule: an exactly-65536-float blob is stored as-is, a longer blob is
truncated to its first 65536 floats, and a shorter one leaves the freshly
allocated zero buffer in place.  Returns the new state, the decoder feeds
used, and the response. -/
def segmentSingleView (rs : Resampler) (runDecoder : DecodeFeeds → DecoderOutput)
    (st : ProviderModel) (req : SegRequest) :
    Except String (ProviderModel × DecodeFeeds × SegResponse) :=
  if st.state = .ready then .ok (segmentCore rs runDecoder st req)
  else .error "Provider not ready"

/-! ## Worker message loop (sam2-worker.ts) and provider response handling -/

/-- The request variants of the worker protocol. -/
inductive WorkerRequestType
  | initModels
  | encode
  | decode
  | segment
  | clearCache
  | dispose
  | getStatus
  deriving Repr, DecidableEq

/-- A worker response: either a success payload or the serialized `error`
variant `{ message, requestType }`. -/
inductive WorkerResponse (ρ : Type)
  | ok (payload : ρ)
  | failed (message : String) (requestType : WorkerRequestType)
  deriving Repr, DecidableEq

/-- `self.onmessage` of sam2-worker.ts: run the matching handler; any thrown
exception is caught and serialized into an `error` response tagged with the
originating request's type.  The handler is abstract: it may update the
worker state (the `sam2` instance and everything inside it) and either
produce a success response or throw. -/
def onWorkerMessage {σ ρ Req : Type} (reqType : Req → WorkerRequestType)
    (handler : σ → Req → σ × Except String ρ)
    (st : σ) (msg : Req) : σ × WorkerResponse ρ :=
  match handler st msg with
  | (st', .ok r) => (st', .ok r)
  | (st', .error e) => (st', .failed e (reqType msg))

/-- The worker's serial message loop: each incoming request yields exactly
one response, and an error response does not tear the loop down. -/
def workerRun {σ ρ Req : Type} (reqType : Req → WorkerRequestType)
    (handler : σ → Req → σ × Except String ρ)
    (st : σ) : List Req → σ × List (WorkerResponse ρ)
  | [] => (st, [])
  | msg :: rest =>
    let step := onWorkerMessage reqType handler st msg
    let tail := workerRun reqType handler step.1 rest
    (tail.1, step.2 :: tail.2)

/-- `SegmentationError` (provider.ts) as surfaced by
`WebGPUProvider.handleWorkerMessage` for worker `error` responses. -/
structure SegmentationErrorModel where
  message : String
  code : String
  requestType : WorkerRequestType
  deriving Repr, DecidableEq

/-- `WebGPUProvider.handleWorkerMessage` (debug messages excluded — they are
filtered out before reaching this logic): responses are matched to the
pending FIFO queue's head; an `error` response rejects it with
`SegmentationError(message, 'SERVER_ERROR', { requestType })`, a success
response resolves it. -/
def handleWorkerResponse {ρ : Type} (pending : List ℕ) (resp : WorkerResponse ρ) :
    List ℕ × Option (ℕ × Except SegmentationErrorModel ρ) :=
  match pending with
  | [] => ([], none)
  | requestId :: rest =>
    match resp with
    | .ok r => (rest, some (requestId, .ok r))
    | .failed msg rt =>
      (rest, some (requestId, .error ⟨msg, "SERVER_ERROR", rt⟩))

/-! ## SegmentationService pending-mask policy (provider.ts) -/

/-- The pending mask record held by `SegmentationService`. -/
structure PendingMaskEntry where
  response : SegResponse
  canvasWidth : ℕ
  canvasHeight : ℕ

/-- The externally observable emissions of the apply/cancel flows:
`events.fire('select.byMask', …)` issued by `applyMaskToSelection`
(mask-selection.ts fires it exactly once per call, at its end), and the
`sam.maskApplied` / `sam.maskCancelled` bus events. -/
inductive ServiceEvent
  | selectByMask (op : String)
  | maskApplied (width height : ℕ)
  | maskCancelled
  deriving Repr, DecidableEq

/-- `SegmentationService.determineSelectionOp`: always `'add'` today. -/
def determineSelectionOp : String := "add"

/-- The `SegmentationService` state the apply/cancel flows touch. -/
structure ServiceState where
  pendingMask : Option PendingMaskEntry

/-- `SegmentationService.applyPendingMask`: a no-op (only a console warning)
without a pending mask; otherwise run `applyMaskToSelection` (which fires
`select.byMask` once), clear the pending mask and fire `sam.maskApplied`. -/
def applyPendingMask (st : ServiceState) : ServiceState × List ServiceEvent :=
  match st.pendingMask with
  | none => (st, [])
  | some pm =>
    ({ pendingMask := none },
     [.selectByMask determineSelectionOp,
      .maskApplied pm.response.width pm.response.height])

/-- `SegmentationService.cancelPendingMask`: a silent no-op without a pending
mask; otherwise clear it and fire `sam.maskCancelled`. -/
def cancelPendingMask (st : ServiceState) : ServiceState × List ServiceEvent :=
  match st.pendingMask with
  | none => (st, [])
  | some _ => ({ pendingMask := none }, [.maskCancelled])

/-! ## Model loader progress (model-loader.ts) -/

/-- `SAM2_MODELS.encoder.expectedSize` (42 MiB). -/
def ENCODER_EXPECTED_SIZE : ℕ := 42 * 1024 * 1024

/-- `SAM2_MODELS.decoder.expectedSize` (15 MiB). -/
def DECODER_EXPECTED_SIZE : ℕ := 15 * 1024 * 1024

/-- `SAM2_MODELS.encoder.name`. -/
def ENCODER_NAME : String := "SAM2 Encoder"

/-- `SAM2_MODELS.decoder.name`. -/
def DECODER_NAME : String := "SAM2 Decoder"

/-- One `onProgress(loaded, total, stage)` callback invocation. -/
structure ProgressEvent where
  loaded : ℕ
  total : ℕ
  stage : String
  deriving Repr, DecidableEq

/-- Running byte totals after each received chunk
(`loaded += value.length; onProgress(loaded, …)` in `downloadModel`). -/
def runningTotals (acc : ℕ) : List ℕ → List ℕ
  | [] => []
  | c :: cs => (acc + c) :: runningTotals (acc + c) cs

/-- The progress events `downloadModel` emits on the streaming path, one per
received chunk, where `total` is the content-length (or the expected size
when that header is missing). -/
def downloadModelEvents (chunks : List ℕ) (total : ℕ) (name : String) :
    List ProgressEvent :=
  (runningTotals 0 chunks).map fun l => ⟨l, total, name⟩

/-- The `trackProgress` wrapper in `loadAllModels`: the overall loaded value
is the stage's own byte counter for the encoder stage and
`encoder.expectedSize + loaded` for the decoder stage; the reported total is
always the sum of the two expected sizes.  (The incoming per-download
`total` is ignored.) -/
def trackProgress (ev : ProgressEvent) : ProgressEvent :=
  { loaded := if ev.stage = ENCODER_NAME then ev.loaded
      else ENCODER_EXPECTED_SIZE + ev.loaded,
    total := ENCODER_EXPECTED_SIZE + DECODER_EXPECTED_SIZE,
    stage := ev.stage }

/-- The full progress-event sequence of a cold-start `loadAllModels` (both
models miss the cache and stream from the network): the encoder download's
events followed by the decoder download's, each passed through
`trackProgress`. -/
def loadAllModelsEvents (encChunks decChunks : List ℕ)
    (encTotal decTotal : ℕ) : List ProgressEvent :=
  (downloadModelEvents encChunks encTotal ENCODER_NAME ++
    downloadModelEvents decChunks decTotal DECODER_NAME).map trackProgress

/-! ## Capability probe (capability-check.ts) -/

/-- `GPUAdapterInfo` fields read by `detectDiscreteGPU`. -/
structure AdapterInfo where
  vendor : String
  architecture : String
  description : String

/-- The host environments `checkWebGPUCapabilities` can observe: no
`navigator.gpu`, `requestAdapter()` returning null, the probe throwing, or
an adapter with its `maxBufferSize` limit and optional info. -/
inductive ProbeEnv
  | noApi
  | noAdapter
  | throws (msg : String)
  | adapter (maxBufferSize : ℕ) (info : Option AdapterInfo)

/-- `WebGPUCapabilities` from capability-check.ts. -/
structure WebGPUCapabilities where
  available : Bool
  unavailableReason : Option String
  estimatedVRAM : ℕ
  isDiscreteGPU : Bool
  isLowVRAM : Bool
  deriving Repr, DecidableEq

/-- `LOW_VRAM_THRESHOLD` (4 GiB). -/
def LOW_VRAM_THRESHOLD : ℕ := 4 * 1024 * 1024 * 1024

/-- `detectDiscreteGPU`: keyword matching of the lowercased adapter
descriptor string against known discrete-GPU tokens. -/
def detectDiscreteGPU (info : AdapterInfo) : Bool :=
  let combined := info.vendor.toLower ++ " " ++ info.architecture.toLower ++
    " " ++ info.description.toLower
  let discreteKeywords := ["nvidia", "geforce", "rtx", "gtx", "quadro",
    "amd", "radeon", "rx ", "vega"]
  if discreteKeywords.any (fun kw => combined.containsSubstr kw) then true
  else if info.vendor.toLower.containsSubstr "intel" &&
      (info.architecture.toLower.containsSubstr "arc" ||
        info.description.toLower.containsSubstr "arc") then true
  else false

/-- `checkWebGPUCapabilities`: the three unavailable branches return
`estimatedVRAM: 0, isDiscreteGPU: false, isLowVRAM: true`; the adapter
branch estimates VRAM as `maxBufferSize * 4` and sets
`isLowVRAM = estimatedVRAM < LOW_VRAM_THRESHOLD && estimatedVRAM > 0`. -/
def checkWebGPUCapabilities (env : ProbeEnv) : WebGPUCapabilities :=
  match env with
  | .noApi =>
    { available := false,
      unavailableReason := some "WebGPU API not available in this browser",
      estimatedVRAM := 0, isDiscreteGPU := false, isLowVRAM := true }
  | .noAdapter =>
    { available := false,
      unavailableReason := some "No WebGPU adapter available",
      estimatedVRAM := 0, isDiscreteGPU := false, isLowVRAM := true }
  | .throws msg =>
    { available := false,
      unavailableReason := some ("WebGPU initialization failed: " ++ msg),
      estimatedVRAM := 0, isDiscreteGPU := false, isLowVRAM := true }
  | .adapter maxBufferSize info =>
    let estimatedVRAM := maxBufferSize * 4
    { available := true,
      unavailableReason := none,
      estimatedVRAM := estimatedVRAM,
      isDiscreteGPU := match info with
        | some i => detectDiscreteGPU i
        | none => false,
      isLowVRAM := decide (estimatedVRAM < LOW_VRAM_THRESHOLD) &&
        decide (estimatedVRAM > 0) }

/-- `WebGPUProvider.isAvailable()`: run the capability probe once (caching
its result in `this.capabilities`) and return `true` unconditionally — the
WASM fallback is always assumed acceptable. -/
def isAvailable (env : ProbeEnv) (cached : Option WebGPUCapabilities) :
    Option WebGPUCapabilities × Bool :=
  let capabilities := match cached with
    | some c => some c
    | none => some (checkWebGPUCapabilities env)
  (capabilities, true)

/-! ## Helper lemmas -/

/-- `keyLookup` after `keyInsert` at the same key. -/
theorem keyLookup_keyInsert_self {α : Type} (m : List (ℕ × α)) (k : ℕ) (v : α) :
    keyLookup (keyInsert m k v) k = some v := by
  simp [keyLookup, keyInsert, List.find?]

/-- Event predicate: is a `sam.maskApplied` emission? -/
def isMaskApplied : ServiceEvent → Bool
  | .maskApplied _ _ => true
  | _ => false

/-- Event predicate: is a `select.byMask` invocation? -/
def isSelectByMask : ServiceEvent → Bool
  | .selectByMask _ => true
  | _ => false

/-! ## C10 — `isAvailable` never gates execution -/

/-- C10: `WebGPUProvider.isAvailable()` resolves to `true` on every host and
for every cached-probe state: availability does not depend on the probe
result, because the WASM fallback is always assumed acceptable. -/
theorem isAvailable_always_true (env : ProbeEnv)
    (cached : Option WebGPUCapabilities) :
    (isAvailable env cached).2 = true := rfl

/-! ## C9 — `isLowVRAM` versus the claimed iff -/

/-- C9 counterexample: on a host without the WebGPU API the probe reports
`isLowVRAM = true` even though `estimatedVRAM = 0`, so `isLowVRAM` does not
hold iff `0 < estimatedVRAM < 4 GiB` for every probe result. -/
theorem isLowVRAM_iff_counterexample :
    (checkWebGPUCapabilities .noApi).isLowVRAM = true ∧
      ¬(0 < (checkWebGPUCapabilities .noApi).estimatedVRAM ∧
        (checkWebGPUCapabilities .noApi).estimatedVRAM < LOW_VRAM_THRESHOLD) := by
  constructor
  · rfl
  · intro h
    exact absurd h.1 (by decide)

/-- C9 (amended): when an adapter is available, `estimatedVRAM` is
`4 × maxBufferSize` and `isLowVRAM` holds iff `0 < estimatedVRAM < 4 GiB`;
on every unavailable probe result, `estimatedVRAM = 0` and `isLowVRAM` is
hard-coded `true`. -/
theorem isLowVRAM_characterisation :
    (∀ (maxBufferSize : ℕ) (info : Option AdapterInfo),
      (checkWebGPUCapabilities (.adapter maxBufferSize info)).estimatedVRAM =
        maxBufferSize * 4 ∧
      ((checkWebGPUCapabilities (.adapter maxBufferSize info)).isLowVRAM = true ↔
        0 < (checkWebGPUCapabilities (.adapter maxBufferSize info)).estimatedVRAM ∧
        (checkWebGPUCapabilities (.adapter maxBufferSize info)).estimatedVRAM <
          LOW_VRAM_THRESHOLD)) ∧
    (∀ env : ProbeEnv, (checkWebGPUCapabilities env).available = false →
      (checkWebGPUCapabilities env).estimatedVRAM = 0 ∧
      (checkWebGPUCapabilities env).isLowVRAM = true) := by
  constructor
  · intro maxBufferSize info
    refine ⟨rfl, ?_⟩
    simp only [checkWebGPUCapabilities, Bool.and_eq_true, decide_eq_true_eq]
    omega
  · intro env h
    cases env with
    | noApi => exact ⟨rfl, rfl⟩
    | noAdapter => exact ⟨rfl, rfl⟩
    | throws msg => exact ⟨rfl, rfl⟩
    | adapter mbs info => simp [checkWebGPUCapabilities] at h

/-- C9 witness: the amended characterisation applied to a concrete adapter
(8 GiB estimate, not low) and to the concrete no-API host. -/
theorem isLowVRAM_characterisation_witness :
    ((checkWebGPUCapabilities (.adapter (2 * 1024 * 1024 * 1024) none)).estimatedVRAM =
        (2 * 1024 * 1024 * 1024) * 4 ∧
      ((checkWebGPUCapabilities (.adapter (2 * 1024 * 1024 * 1024) none)).isLowVRAM = true ↔
        0 < (checkWebGPUCapabilities (.adapter (2 * 1024 * 1024 * 1024) none)).estimatedVRAM ∧
        (checkWebGPUCapabilities (.adapter (2 * 1024 * 1024 * 1024) none)).estimatedVRAM <
          LOW_VRAM_THRESHOLD)) ∧
    ((checkWebGPUCapabilities .noApi).available = false ∧
      (checkWebGPUCapabilities .noApi).estimatedVRAM = 0 ∧
      (checkWebGPUCapabilities .noApi).isLowVRAM = true) :=
  ⟨isLowVRAM_characterisation.1 (2 * 1024 * 1024 * 1024) none,
   rfl, isLowVRAM_characterisation.2 .noApi rfl⟩

/-! ## C8 — applyMask consumes the pending mask -/

/-- C8: with a pending mask, `applyPendingMask` clears it, emits
`sam.maskApplied` exactly once and invokes `select.byMask` exactly once;
with no pending mask both `applyPendingMask` and `cancelPendingMask` emit
nothing and change nothing; hence apply-then-apply applies once overall and
cancel-then-apply applies nothing. -/
theorem applyPendingMask_consumes (pm : PendingMaskEntry) :
    ((applyPendingMask ⟨some pm⟩).1.pendingMask = none ∧
      (applyPendingMask ⟨some pm⟩).2.countP isMaskApplied = 1 ∧
      (applyPendingMask ⟨some pm⟩).2.countP isSelectByMask = 1) ∧
    (applyPendingMask ⟨none⟩ = (⟨none⟩, []) ∧
      cancelPendingMask ⟨none⟩ = (⟨none⟩, [])) ∧
    (((applyPendingMask ⟨some pm⟩).2 ++
        (applyPendingMask (applyPendingMask ⟨some pm⟩).1).2).countP
          isSelectByMask = 1 ∧
      ((applyPendingMask ⟨some pm⟩).2 ++
        (applyPendingMask (applyPendingMask ⟨some pm⟩).1).2).countP
          isMaskApplied = 1) ∧
    (∀ st : ServiceState, (applyPendingMask (cancelPendingMask st).1).2 = []) := by
  refine ⟨⟨rfl, rfl, rfl⟩, ⟨rfl, rfl⟩, ⟨rfl, rfl⟩, ?_⟩
  intro st
  rcases st with ⟨_ | pm'⟩ <;> rfl

/-! ## C5 — provider `initialize` lifecycle -/

/-- A provider state whose initialization is in flight. -/
def inFlightState : ProviderModel :=
  { state := .loadingModels, currentProvider := none,
    previousMaskLogits := [], currentImageId := none, imageIdCounter := 0 }

/-- A benign initialization environment (load and worker init succeed). -/
def okInitEnv : InitEnv :=
  { loadModelsOk := true, loadAborted := false, workerInit := .ok .webgpu }

/-- C5 counterexample: a call made while initialization is in flight does
not share the in-flight result — it throws
`'Initialization already in progress'`, even in an environment where
initialization would succeed. -/
theorem providerInit_in_flight_counterexample :
    (initializeProvider okInitEnv inFlightState).2 =
      .error "Initialization already in progress" := rfl

/-- C5 (amended): `initialize()` when already `ready` succeeds with the
current execution provider; a call made while initialization is in flight
throws `'Initialization already in progress'` instead of sharing the
in-flight result; a failed initialize (model load or worker init failure)
transitions the state to error; and a subsequent `initialize` from the
error state restarts the sequence and succeeds when its steps succeed. -/
theorem providerInit_lifecycle (env : InitEnv) (st : ProviderModel) :
    (st.state = .ready →
      initializeProvider env st = (st, .ok st.currentProvider)) ∧
    (st.state = .loadingModels ∨ st.state = .initializing →
      initializeProvider env st =
        (st, .error "Initialization already in progress")) ∧
    (∀ p, st.state = .errored → env.loadModelsOk = true →
      env.workerInit = .ok p →
      initializeProvider env st =
        ({ st with state := .ready, currentProvider := some p }, .ok (some p))) ∧
    (st.state ≠ .ready → st.state ≠ .loadingModels → st.state ≠ .initializing →
      env.loadModelsOk = false →
      (initializeProvider env st).1.state = .errored) ∧
    (∀ msg, st.state ≠ .ready → st.state ≠ .loadingModels →
      st.state ≠ .initializing → env.loadModelsOk = true →
      env.workerInit = .error msg →
      initializeProvider env st =
        ({ st with state := .errored }, .error msg)) := by
  refine ⟨?_, ?_, ?_, ?_, ?_⟩
  · intro h
    simp [initializeProvider, h]
  · rintro (h | h) <;> cases hs : st.state <;> simp_all [initializeProvider]
  · intro p h hload hw
    simp [initializeProvider, h, hload, hw]
  · intro h1 h2 h3 hload
    simp [initializeProvider, h1, h2, h3, hload]
  · intro msg h1 h2 h3 hload hw
    simp [initializeProvider, h1, h2, h3, hload, hw]

/-- A provider state in the error state (after a failed initialize). -/
def erroredState : ProviderModel :=
  { state := .errored, currentProvider := none,
    previousMaskLogits := [], currentImageId := none, imageIdCounter := 0 }

/-- C5 witness: the lifecycle theorem applied at concrete states — the
in-flight state rejects, and a retry from the error state succeeds with the
webgpu provider. -/
theorem providerInit_lifecycle_witness :
    (initializeProvider okInitEnv inFlightState =
      (inFlightState, .error "Initialization already in progress")) ∧
    (initializeProvider okInitEnv erroredState =
      ({ erroredState with
          state := ProviderState.ready
          currentProvider := some ExecutionProvider.webgpu },
        .ok (some ExecutionProvider.webgpu))) :=
  ⟨(providerInit_lifecycle okInitEnv inFlightState).2.1 (Or.inl rfl),
   (providerInit_lifecycle okInitEnv erroredState).2.2.1 .webgpu rfl rfl rfl⟩

/-! ## C6 — worker-isolated failures -/

/-- The worker loop produces exactly one response per request. -/
theorem workerRun_length {σ ρ Req : Type} (reqType : Req → WorkerRequestType)
    (handler : σ → Req → σ × Except String ρ) (st : σ) (msgs : List Req) :
    (workerRun reqType handler st msgs).2.length = msgs.length := by
  induction msgs generalizing st with
  | nil => rfl
  | cons m rest ih => simp [workerRun, ih]

/-- The worker loop splits over request-list concatenation: the state after
the first batch feeds the second. -/
theorem workerRun_append {σ ρ Req : Type} (reqType : Req → WorkerRequestType)
    (handler : σ → Req → σ × Except String ρ) (st : σ) (a b : List Req) :
    workerRun reqType handler st (a ++ b) =
      ((workerRun reqType handler (workerRun reqType handler st a).1 b).1,
       (workerRun reqType handler st a).2 ++
         (workerRun reqType handler (workerRun reqType handler st a).1 b).2) := by
  induction a generalizing st with
  | nil => simp [workerRun]
  | cons m rest ih => simp [workerRun, ih]

/-- C6: an exception thrown by the handler of any request is caught and
serialized into an `error` response tagged with that request's type; the
loop keeps processing the remaining requests from the handler's resulting
state (the worker is not torn down), still answering every request; and the
provider rejects the matching (oldest pending) call with
`SegmentationError(message, 'SERVER_ERROR', { requestType })`. -/
theorem worker_error_isolation {σ ρ Req : Type}
    (reqType : Req → WorkerRequestType)
    (handler : σ → Req → σ × Except String ρ)
    (st0 : σ) (pre : List Req) (m : Req) (post : List Req)
    (e : String) (stErr : σ)
    (herr : handler (workerRun reqType handler st0 pre).1 m = (stErr, .error e)) :
    (workerRun reqType handler st0 (pre ++ m :: post)).2 =
      (workerRun reqType handler st0 pre).2 ++
        WorkerResponse.failed e (reqType m) ::
          (workerRun reqType handler stErr post).2 ∧
    (workerRun reqType handler st0 (pre ++ m :: post)).2.length =
      pre.length + 1 + post.length ∧
    (∀ (requestId : ℕ) (restPending : List ℕ),
      handleWorkerResponse (ρ := ρ) (requestId :: restPending)
        (.failed e (reqType m)) =
        (restPending, some (requestId, .error ⟨e, "SERVER_ERROR", reqType m⟩))) := by
  refine ⟨?_, ?_, fun _ _ => rfl⟩
  · rw [workerRun_append]
    simp [workerRun, onWorkerMessage, herr]
  · rw [workerRun_length]
    simp
    omega

/-- Concrete worker handler for the C6 witness: `decode` requests throw,
everything else succeeds and bumps a counter state. -/
def throwingHandler : ℕ → WorkerRequestType → ℕ × Except String ℕ :=
  fun s r =>
    match r with
    | .decode => (s, .error "shape mismatch")
    | _ => (s + 1, .ok s)

/-- C6 witness: the isolation theorem at a concrete request trace
`[encode, decode, segment]` whose `decode` handler throws — the error
response is tagged `decode`, three responses answer three requests, and the
pending call `7` is rejected with a `SERVER_ERROR` SegmentationError. -/
theorem worker_error_isolation_witness :
    ((workerRun id throwingHandler 0
        ([WorkerRequestType.encode] ++ WorkerRequestType.decode ::
          [WorkerRequestType.segment])).2 =
      (workerRun id throwingHandler 0 [WorkerRequestType.encode]).2 ++
        WorkerResponse.failed "shape mismatch" WorkerRequestType.decode ::
          (workerRun id throwingHandler 1 [WorkerRequestType.segment]).2 ∧
      (workerRun id throwingHandler 0
        ([WorkerRequestType.encode] ++ WorkerRequestType.decode ::
          [WorkerRequestType.segment])).2.length = 1 + 1 + 1 ∧
      (∀ (requestId : ℕ) (restPending : List ℕ),
        handleWorkerResponse (ρ := ℕ) (requestId :: restPending)
          (.failed "shape mismatch" WorkerRequestType.decode) =
          (restPending, some (requestId,
            .error ⟨"shape mismatch", "SERVER_ERROR", WorkerRequestType.decode⟩)))) :=
  worker_error_isolation id throwingHandler 0 [WorkerRequestType.encode]
    WorkerRequestType.decode [WorkerRequestType.segment] "shape mismatch" 1 rfl

/-! ## C4 — encode is idempotent per image id -/

/-- C4: after a first `encodeImage` for an id (on an initialized engine whose
encoder emits `image_embed`), a second `encodeImage` with the same id is a
cache hit: it leaves the engine state (and hence the cached embeddings)
unchanged, does not run the encoder, and reports an encode time of 0 ms. -/
theorem encodeImage_idempotent {Emb : Type}
    (encoder : List ℕ → ℕ → ℕ → EncoderOutput Emb) (t1 t2 : ℚ)
    (st0 : EngineState Emb) (imageId : ℕ) (img : List ℕ) (w h : ℕ)
    (hinit : st0.initialized = true)
    (hembed : (encoder img w h).imageEmbed.isSome = true) :
    ∃ st1 r1 ran1,
      encodeImage encoder t1 st0 imageId img w h = .ok (st1, r1, ran1) ∧
      encodeImage encoder t2 st1 imageId img w h = .ok (st1, 0, false) := by
  obtain ⟨e, he⟩ := Option.isSome_iff_exists.mp hembed
  by_cases hk : (keyLookup st0.imageEmbeddings imageId).isSome
  · exact ⟨st0, 0, false, by simp [encodeImage, hinit, hk],
      by simp [encodeImage, hinit, hk]⟩
  · set stA := { st0 with
      cachedImageData := keyInsert st0.cachedImageData imageId (img, w, h) }
      with hstA
    set stB := { stA with
      imageEmbeddings := keyInsert stA.imageEmbeddings imageId e } with hstB
    set highResFeats :=
      (match (encoder img w h).highResFeats0 with | some f => [f] | none => []) ++
      (match (encoder img w h).highResFeats1 with | some f => [f] | none => [])
      with hfeats
    set stC := if highResFeats.length > 0
      then { stB with
        highResFeatures := keyInsert stB.highResFeatures imageId highResFeats }
      else stB with hstC
    have hini : stC.initialized = true := by
      rw [hstC]
      split <;> simp [hstB, hstA, hinit]
    have hlk : keyLookup stC.imageEmbeddings imageId = some e := by
      rw [hstC]
      split <;> simp [hstB, keyLookup_keyInsert_self]
    refine ⟨stC, t1, true, ?_, ?_⟩
    · simp [encodeImage, hinit, hk, he, hstC, hstB, hstA, hfeats]
    · simp [encodeImage, hini, hlk]

/-- Concrete encoder for the C4 witness: always produces an embedding. -/
def unitEncoder : List ℕ → ℕ → ℕ → EncoderOutput Unit :=
  fun _ _ _ => { imageEmbed := some (), highResFeats0 := none, highResFeats1 := none }

/-- Fresh engine state for the C4 witness. -/
def freshEngine : EngineState Unit :=
  { initialized := true, imageEmbeddings := [], highResFeatures := [],
    cachedImageData := [] }

/-- C4 witness: the idempotence theorem at a concrete engine, image and id. -/
theorem encodeImage_idempotent_witness :
    ∃ st1 r1 ran1,
      encodeImage unitEncoder 5 freshEngine 1 [0, 0, 0, 255] 1 1 =
        .ok (st1, r1, ran1) ∧
      encodeImage unitEncoder 9 st1 1 [0, 0, 0, 255] 1 1 = .ok (st1, 0, false) :=
  encodeImage_idempotent unitEncoder 5 9 freshEngine 1 [0, 0, 0, 255] 1 1 rfl rfl

/-! ## C7 — model-load progress -/

/-- Every running total lies between the starting accumulator and the
accumulator plus the total chunk volume. -/
theorem runningTotals_mem_bounds (l : List ℕ) :
    ∀ (acc : ℕ), ∀ x ∈ runningTotals acc l, acc ≤ x ∧ x ≤ acc + l.sum := by
  induction l with
  | nil => intro acc x hx; simp [runningTotals] at hx
  | cons c cs ih =>
    intro acc x hx
    simp only [runningTotals, List.mem_cons] at hx
    rcases hx with rfl | hx
    · simp only [List.sum_cons]
      omega
    · have := ih (acc + c) x hx
      simp only [List.sum_cons]
      omega

/-- Running totals are nondecreasing. -/
theorem runningTotals_chain (l : List ℕ) :
    ∀ acc : ℕ, List.Chain' (· ≤ ·) (runningTotals acc l) := by
  induction l with
  | nil => intro acc; simp [runningTotals]
  | cons c cs ih =>
    intro acc
    rw [runningTotals, List.chain'_cons']
    refine ⟨?_, ih (acc + c)⟩
    intro y hy
    exact (runningTotals_mem_bounds cs (acc + c) y (List.mem_of_mem_head? hy)).1

/-- `runningTotals` is empty only on an empty chunk list. -/
theorem runningTotals_eq_nil (acc : ℕ) (l : List ℕ) :
    runningTotals acc l = [] ↔ l = [] := by
  cases l <;> simp [runningTotals]

/-- The last running total is the full byte count. -/
theorem runningTotals_getLast (l : List ℕ) :
    ∀ acc : ℕ, l ≠ [] → (runningTotals acc l).getLast? = some (acc + l.sum) := by
  induction l with
  | nil => intro acc h; exact absurd rfl h
  | cons c cs ih =>
    intro acc _
    rw [runningTotals]
    rcases eq_or_ne cs [] with rfl | hcs
    · simp [runningTotals]
    · have hne : runningTotals (acc + c) cs ≠ [] := by
        rw [ne_eq, runningTotals_eq_nil]
        exact hcs
      obtain ⟨y, ys, hy⟩ := List.exists_cons_of_ne_nil hne
      rw [hy, List.getLast?_cons_cons, ← hy, ih (acc + c) hcs]
      simp only [List.sum_cons, Option.some.injEq]
      omega

/-- `getLast?` commutes with `map`. -/
theorem listGetLastMap {α β : Type} (f : α → β) (l : List α) :
    (l.map f).getLast? = l.getLast?.map f := by
  induction l with
  | nil => rfl
  | cons a as ih =>
    rcases eq_or_ne as [] with rfl | has
    · rfl
    · obtain ⟨y, ys, hy⟩ := List.exists_cons_of_ne_nil has
      subst hy
      rw [List.map_cons, List.map_cons, List.getLast?_cons_cons,
        List.getLast?_cons_cons, ← List.map_cons, ih]

/-- The cold-start progress sequence, unfolded: encoder events carry their
own running totals, decoder events are offset by the encoder's expected
size, and every event reports the combined expected total. -/
theorem loadAllModelsEvents_eq (encChunks decChunks : List ℕ)
    (encTotal decTotal : ℕ) :
    loadAllModelsEvents encChunks decChunks encTotal decTotal =
      (runningTotals 0 encChunks).map
        (fun l => ⟨l, ENCODER_EXPECTED_SIZE + DECODER_EXPECTED_SIZE, ENCODER_NAME⟩) ++
      (runningTotals 0 decChunks).map
        (fun l => ⟨ENCODER_EXPECTED_SIZE + l,
          ENCODER_EXPECTED_SIZE + DECODER_EXPECTED_SIZE, DECODER_NAME⟩) := by
  have henc : ∀ l : ℕ, trackProgress ⟨l, encTotal, ENCODER_NAME⟩ =
      ⟨l, ENCODER_EXPECTED_SIZE + DECODER_EXPECTED_SIZE, ENCODER_NAME⟩ := by
    intro l
    simp [trackProgress]
  have hdec : ∀ l : ℕ, trackProgress ⟨l, decTotal, DECODER_NAME⟩ =
      ⟨ENCODER_EXPECTED_SIZE + l,
        ENCODER_EXPECTED_SIZE + DECODER_EXPECTED_SIZE, DECODER_NAME⟩ := by
    intro l
    have hne : ¬(DECODER_NAME = ENCODER_NAME) := by decide
    simp [trackProgress, hne]
  simp only [loadAllModelsEvents, downloadModelEvents, List.map_append,
    List.map_map]
  exact congrArg₂ (· ++ ·) (List.map_congr_left fun a _ => henc a)
    (List.map_congr_left fun a _ => hdec a)

/-- An element of `getLast?` is an element of the list. -/
theorem memOfMemGetLast {α : Type} {l : List α} {x : α}
    (h : x ∈ l.getLast?) : x ∈ l := by
  obtain ⟨hne, rfl⟩ := List.mem_getLast?_eq_getLast h
  exact List.getLast_mem hne

/-- C7 counterexample: when the encoder download delivers two more bytes
than its hardcoded 42 MiB expected size (the overall value is the *actual*
encoder byte counter, but the decoder stage is offset by the *expected*
encoder size), the overall `loaded` sequence decreases across the stage
boundary, so the progress values are not monotone for every cold-start
run. -/
theorem loadProgress_monotone_counterexample :
    ¬ List.Chain' (fun a b => a.loaded ≤ b.loaded)
      (loadAllModelsEvents [ENCODER_EXPECTED_SIZE + 2] [1]
        (ENCODER_EXPECTED_SIZE + 2) 1) := by
  intro h
  rw [loadAllModelsEvents_eq] at h
  simp only [runningTotals, List.map_cons, List.map_nil, List.cons_append,
    List.nil_append, List.chain'_cons] at h
  have h1 := h.1
  simp only [Nat.zero_add] at h1
  omega

/-- C7 (amended): for a cold-start `loadAllModels` in which each model's
downloaded byte count equals its hardcoded expected size (42 MiB encoder,
15 MiB decoder) and the decoder stream delivers at least one chunk, the
emitted overall `loaded` values are monotonically nondecreasing, the final
callback reports `loaded = total`, and every callback reports the combined
expected total. -/
theorem loadProgress_monotone_of_expected_sizes
    (encChunks decChunks : List ℕ) (encTotal decTotal : ℕ)
    (hEncSum : encChunks.sum = ENCODER_EXPECTED_SIZE)
    (hDecSum : decChunks.sum = DECODER_EXPECTED_SIZE)
    (hDecNe : decChunks ≠ []) :
    List.Chain' (fun a b => a.loaded ≤ b.loaded)
      (loadAllModelsEvents encChunks decChunks encTotal decTotal) ∧
    (loadAllModelsEvents encChunks decChunks encTotal decTotal).getLast?.map
      ProgressEvent.loaded =
      some (ENCODER_EXPECTED_SIZE + DECODER_EXPECTED_SIZE) ∧
    ∀ ev ∈ loadAllModelsEvents encChunks decChunks encTotal decTotal,
      ev.total = ENCODER_EXPECTED_SIZE + DECODER_EXPECTED_SIZE := by
  rw [loadAllModelsEvents_eq]
  refine ⟨?_, ?_, ?_⟩
  · rw [List.chain'_append]
    refine ⟨?_, ?_, ?_⟩
    · rw [List.chain'_map]
      exact runningTotals_chain encChunks 0
    · rw [List.chain'_map]
      exact (runningTotals_chain decChunks 0).imp fun h => by
        simp only []
        omega
    · intro x hx y hy
      obtain ⟨a, ha, rfl⟩ := List.mem_map.mp (memOfMemGetLast hx)
      obtain ⟨b, hb, rfl⟩ := List.mem_map.mp (List.mem_of_mem_head? hy)
      have hba := (runningTotals_mem_bounds encChunks 0 a ha).2
      simp only []
      omega
  · have hne : (runningTotals 0 decChunks).map
        (fun l => (⟨ENCODER_EXPECTED_SIZE + l,
          ENCODER_EXPECTED_SIZE + DECODER_EXPECTED_SIZE,
          DECODER_NAME⟩ : ProgressEvent)) ≠ [] := by
      simp [runningTotals_eq_nil, hDecNe]
    rw [List.getLast?_append_of_ne_nil _ hne, listGetLastMap,
      runningTotals_getLast decChunks 0 hDecNe]
    simp [hDecSum]
  · intro ev hev
    rcases List.mem_append.mp hev with h | h <;>
      · obtain ⟨a, _, rfl⟩ := List.mem_map.mp h
        rfl

/-- C7 witness: the amended theorem at a single-chunk download of exactly
the expected sizes. -/
theorem loadProgress_monotone_witness :
    List.Chain' (fun a b => a.loaded ≤ b.loaded)
      (loadAllModelsEvents [ENCODER_EXPECTED_SIZE] [DECODER_EXPECTED_SIZE]
        ENCODER_EXPECTED_SIZE DECODER_EXPECTED_SIZE) ∧
    (loadAllModelsEvents [ENCODER_EXPECTED_SIZE] [DECODER_EXPECTED_SIZE]
        ENCODER_EXPECTED_SIZE DECODER_EXPECTED_SIZE).getLast?.map
      ProgressEvent.loaded =
      some (ENCODER_EXPECTED_SIZE + DECODER_EXPECTED_SIZE) ∧
    ∀ ev ∈ loadAllModelsEvents [ENCODER_EXPECTED_SIZE] [DECODER_EXPECTED_SIZE]
        ENCODER_EXPECTED_SIZE DECODER_EXPECTED_SIZE,
      ev.total = ENCODER_EXPECTED_SIZE + DECODER_EXPECTED_SIZE :=
  loadProgress_monotone_of_expected_sizes [ENCODER_EXPECTED_SIZE]
    [DECODER_EXPECTED_SIZE] ENCODER_EXPECTED_SIZE DECODER_EXPECTED_SIZE
    (by simp) (by simp) (by simp)

/-! ## C2 — IoU argmax selection -/

/-- Invariant proof for the selection scan: if `best` is the strict argmax of
the prefix `l[0..i)` (with smallest-index tie-break), the scan's result is
the strict argmax of all of `l`. -/
theorem argmaxGo_spec (l : List ℚ) (i best : ℕ)
    (hb : best < l.length) (hbi : best < i)
    (hmax : ∀ j < i, l.getD j 0 ≤ l.getD best 0)
    (hstrict : ∀ j < best, l.getD j 0 < l.getD best 0) :
    IsArgmaxSmallestTie l (argmaxGo l i best (l.getD best 0)) := by
  rw [argmaxGo]
  split
  case isTrue h =>
    split
    case isTrue hgt =>
      exact argmaxGo_spec l (i + 1) i h (Nat.lt_succ_self i)
        (fun j hj => by
          rcases Nat.lt_succ_iff_lt_or_eq.mp hj with hj' | rfl
          · exact le_of_lt (lt_of_le_of_lt (hmax j hj') hgt)
          · exact le_refl _)
        (fun j hj => lt_of_le_of_lt (hmax j hj) hgt)
    case isFalse hle =>
      exact argmaxGo_spec l (i + 1) best hb (Nat.lt_succ_of_lt hbi)
        (fun j hj => by
          rcases Nat.lt_succ_iff_lt_or_eq.mp hj with hj' | rfl
          · exact hmax j hj'
          · exact not_lt.mp hle)
        hstrict
  case isFalse h =>
    exact ⟨hb, fun j hj => hmax j (lt_of_lt_of_le hj (Nat.le_of_not_lt h)),
      hstrict⟩
  termination_by l.length - i

/-- For a nonempty IoU list, the code's selection is the argmax with
smallest-index tie-break. -/
theorem bestMaskIndexOf_spec (l : List ℚ) (hne : l ≠ []) :
    IsArgmaxSmallestTie l (bestMaskIndexOf (some l)) := by
  have hpos : 0 < l.length := List.length_pos.mpr hne
  simp only [bestMaskIndexOf]
  split
  case isTrue h =>
    have h00 : l.getD 0 0 = l.getD 0 0 := rfl
    exact argmaxGo_spec l 1 0 hpos Nat.one_pos
      (fun j hj => by
        have : j = 0 := by omega
        subst this
        exact le_refl _)
      (fun j hj => absurd hj (Nat.not_lt_zero j))
  case isFalse h =>
    exact ⟨hpos,
      fun j hj => by
        have : j = 0 := by omega
        subst this
        exact le_refl _,
      fun j hj => absurd hj (Nat.not_lt_zero j)⟩

/-- C2: the decode post-processing selects the argmax of the IoU scores with
ties broken toward the smallest index; when `iou_predictions` is absent the
selected index is 0 and every returned candidate carries `iouScore = 1.0`. -/
theorem decode_selects_argmax (rs : Resampler) (out : DecoderOutput)
    (originalWidth originalHeight : ℕ) :
    (∀ l, out.iou = some l → l ≠ [] →
      IsArgmaxSmallestTie l
        (decodeProcess rs out originalWidth originalHeight).selectedMaskIndex) ∧
    (out.iou = none →
      (decodeProcess rs out originalWidth originalHeight).selectedMaskIndex = 0 ∧
      ∀ c ∈ (decodeProcess rs out originalWidth originalHeight).allMasks,
        c.iouScore = 1) := by
  constructor
  · intro l hl hne
    have hsel : (decodeProcess rs out originalWidth originalHeight).selectedMaskIndex =
        bestMaskIndexOf out.iou := rfl
    rw [hsel, hl]
    exact bestMaskIndexOf_spec l hne
  · intro h
    constructor
    · simp [decodeProcess, bestMaskIndexOf, h]
    · intro c hc
      simp only [decodeProcess, h, List.mem_map] at hc
      obtain ⟨i, _, rfl⟩ := hc
      rfl

/-- Nearest-style concrete resampler used by the witnesses. -/
def constResampler : Resampler :=
  ⟨fun mask _ _ _ _ i => mask.getD i 0⟩

/-- Small decoder mask tensor for the witnesses: 3 planes of 1×1. -/
def witnessTensor : Tensor4 :=
  { data := [1, 2, 3], numMasks := 3, height := 1, width := 1 }

/-- Witness decoder output with IoU predictions `[0.7, 0.9, 0.8]`. -/
def iouOut : DecoderOutput :=
  ⟨witnessTensor, some [(7 : ℚ)/10, 9/10, 8/10]⟩

/-- Witness decoder output without IoU predictions. -/
def noIouOut : DecoderOutput := ⟨witnessTensor, none⟩

/-- C2 witness: with IoU `[0.7, 0.9, 0.8]` the selection is the
smallest-tie argmax; without IoU predictions the selected index is 0 and all
candidates score 1.0. -/
theorem decode_selects_argmax_witness :
    IsArgmaxSmallestTie [(7 : ℚ)/10, 9/10, 8/10]
      ((decodeProcess constResampler iouOut 2 2).selectedMaskIndex) ∧
    ((decodeProcess constResampler noIouOut 2 2).selectedMaskIndex = 0 ∧
      ∀ c ∈ (decodeProcess constResampler noIouOut 2 2).allMasks,
        c.iouScore = 1) :=
  ⟨(decode_selects_argmax constResampler iouOut 2 2).1 _ rfl (by simp),
   (decode_selects_argmax constResampler noIouOut 2 2).2 rfl⟩

/-! ## C1 — response invariants of a successful segment -/

/-- `resizeMask` always yields exactly `targetWidth * targetHeight` bytes. -/
theorem resizeMask_length (rs : Resampler) (mask : List ℕ)
    (mw mh tw th : ℕ) : (resizeMask rs mask mw mh tw th).length = tw * th := by
  simp [resizeMask]

/-- `resizeMask` output bytes are only 0 or 255. -/
theorem resizeMask_mem (rs : Resampler) (mask : List ℕ) (mw mh tw th : ℕ) :
    ∀ b ∈ resizeMask rs mask mw mh tw th, b = 0 ∨ b = 255 := by
  intro b hb
  simp only [resizeMask, List.mem_map] at hb
  obtain ⟨i, _, hi⟩ := hb
  split at hi
  · right
    omega
  · left
    omega

/-- `get?` through a `range`-map. -/
theorem rangeMapGet {α : Type} (n k : ℕ) (f : ℕ → α) (h : k < n) :
    ((List.range n).map f).get? k = some (f k) := by
  rw [List.get?_map, List.get?_range h]
  rfl

/-- The `i`-th entry of the `allMasks` candidate list built by
`SAM2Core.decode` (the loop body, as a function of the loop index). -/
def candidateAt (rs : Resampler) (out : DecoderOutput)
    (originalWidth originalHeight : ℕ) (i : ℕ) : MaskCandidate :=
  { index := i,
    iouScore := match out.iou with | some l => l.getD i 0 | none => 1,
    mask := resizeMask rs (processMaskLogits out.maskTensor i 0).mask
      out.maskTensor.width out.maskTensor.height originalWidth originalHeight,
    width := originalWidth,
    height := originalHeight,
    logits := extractLogits out.maskTensor.data
      (i * (out.maskTensor.width * out.maskTensor.height))
      (out.maskTensor.width * out.maskTensor.height) }

/-- Invariants of the decode post-processing: the selected mask has
`originalWidth*originalHeight` bytes, all 0/255; the selected index is in
range of `allMasks`; and the selected candidate's mask is bytewise the
returned mask (they are the same computation on the same inputs). -/
theorem decodeProcess_invariants (rs : Resampler) (out : DecoderOutput)
    (originalWidth originalHeight : ℕ)
    (hiou : ∀ l, out.iou = some l → l ≠ []) :
    (decodeProcess rs out originalWidth originalHeight).mask.length =
      originalWidth * originalHeight ∧
    (∀ b ∈ (decodeProcess rs out originalWidth originalHeight).mask,
      b = 0 ∨ b = 255) ∧
    (decodeProcess rs out originalWidth originalHeight).selectedMaskIndex <
      (decodeProcess rs out originalWidth originalHeight).allMasks.length ∧
    ∃ c, (decodeProcess rs out originalWidth originalHeight).allMasks.get?
        (decodeProcess rs out originalWidth originalHeight).selectedMaskIndex =
          some c ∧
      c.mask = (decodeProcess rs out originalWidth originalHeight).mask := by
  have hnum : (decodeProcess rs out originalWidth originalHeight).allMasks =
      (List.range (match out.iou with | some l => l.length | none => 1)).map
        (candidateAt rs out originalWidth originalHeight) := rfl
  have hlt : bestMaskIndexOf out.iou <
      (match out.iou with | some l => l.length | none => 1) := by
    cases hout : out.iou with
    | none => simp [bestMaskIndexOf]
    | some l => exact (bestMaskIndexOf_spec l (hiou l hout)).1
  refine ⟨resizeMask_length rs _ _ _ _ _, resizeMask_mem rs _ _ _ _ _, ?_, ?_⟩
  · rw [hnum, List.length_map, List.length_range]
    exact hlt
  · exact ⟨candidateAt rs out originalWidth originalHeight
      (bestMaskIndexOf out.iou),
      by rw [hnum]; exact rangeMapGet _ _ _ hlt, rfl⟩

/-- C1: a successful `segmentSingleView` on a `ready` provider (with a
decoder whose `iou_predictions`, when present, are nonempty) returns a
response whose mask has `width*height` bytes, each 0 or 255, whose
`selectedMaskIndex` indexes into `allMasks`, and whose `mask` is bytewise
equal to `allMasks[selectedMaskIndex].mask`. -/
theorem segment_response_invariants (rs : Resampler)
    (runDecoder : DecodeFeeds → DecoderOutput) (st : ProviderModel)
    (req : SegRequest) (hready : st.state = .ready)
    (hiou : ∀ f l, (runDecoder f).iou = some l → l ≠ []) :
    ∃ st' feeds resp,
      segmentSingleView rs runDecoder st req = .ok (st', feeds, resp) ∧
      resp.mask.length = req.width * req.height ∧
      (∀ b ∈ resp.mask, b = 0 ∨ b = 255) ∧
      resp.selectedMaskIndex < resp.allMasks.length ∧
      ∃ c, resp.allMasks.get? resp.selectedMaskIndex = some c ∧
        c.mask = resp.mask := by
  obtain ⟨h1, h2, h3, h4⟩ := decodeProcess_invariants rs
    (runDecoder (segmentCore rs runDecoder st req).2.1) req.width req.height
    (fun l hl => hiou _ l hl)
  exact ⟨(segmentCore rs runDecoder st req).1,
    (segmentCore rs runDecoder st req).2.1,
    (segmentCore rs runDecoder st req).2.2,
    by simp [segmentSingleView, hready], h1, h2, h3, h4⟩

/-- Concrete `ready` provider for the witnesses. -/
def readyProvider : ProviderModel :=
  { state := .ready, currentProvider := some .webgpu,
    previousMaskLogits := [], currentImageId := some 1, imageIdCounter := 1 }

/-- Concrete decoder for the C1 witness: constant output with IoU scores. -/
def witnessDecoder : DecodeFeeds → DecoderOutput := fun _ => iouOut

/-- Concrete 2×2 white-image request with one foreground point. -/
def witnessRequest : SegRequest :=
  { image := List.replicate 16 255, width := 2, height := 2,
    points := [⟨1, 1, true⟩] }

/-- C1 witness: the response invariants at a concrete ready provider,
request and decoder. -/
theorem segment_response_invariants_witness :
    ∃ st' feeds resp,
      segmentSingleView constResampler witnessDecoder readyProvider
        witnessRequest = .ok (st', feeds, resp) ∧
      resp.mask.length = witnessRequest.width * witnessRequest.height ∧
      (∀ b ∈ resp.mask, b = 0 ∨ b = 255) ∧
      resp.selectedMaskIndex < resp.allMasks.length ∧
      ∃ c, resp.allMasks.get? resp.selectedMaskIndex = some c ∧
        c.mask = resp.mask :=
  segment_response_invariants constResampler witnessDecoder readyProvider
    witnessRequest rfl
    (fun f l hl => by
      rw [show (witnessDecoder f).iou = some [(7 : ℚ)/10, 9/10, 8/10] from rfl]
        at hl
      cases hl
      simp)

/-! ## C3 — previous-mask logits feed the next decode -/

/-- `extractLogits` always yields exactly `size` values. -/
theorem extractLogits_length (data : List ℚ) (offset size : ℕ) :
    (extractLogits data offset size).length = size := by
  simp [extractLogits]

/-- `segmentCore` with a live session, written out without `let`s: the state
stores the (length-normalised) best-mask logits under the session id, the
feeds come from `sam2Decode` on the stored previous mask, and the response
copies the decode result's fields. -/
theorem segmentCore_eq (rs : Resampler) (d : DecodeFeeds → DecoderOutput)
    (st : ProviderModel) (req : SegRequest) (id : ℕ) (prev : Option (List ℚ))
    (hsess : st.currentImageId = some id)
    (hprev : keyLookup st.previousMaskLogits id = prev) :
    segmentCore rs d st req =
      ({ st with
          previousMaskLogits := keyInsert st.previousMaskLogits id
            (if (sam2Decode rs d req.points req.width req.height prev).2.logits.length =
                256 * 256
             then (sam2Decode rs d req.points req.width req.height prev).2.logits
             else if (sam2Decode rs d req.points req.width req.height prev).2.logits.length ≥
                256 * 256
             then (sam2Decode rs d req.points req.width req.height prev).2.logits.take
               (256 * 256)
             else List.replicate (256 * 256) 0)
          state := .ready },
       (sam2Decode rs d req.points req.width req.height prev).1,
       { width := (sam2Decode rs d req.points req.width req.height prev).2.width,
         height := (sam2Decode rs d req.points req.width req.height prev).2.height,
         mask := (sam2Decode rs d req.points req.width req.height prev).2.mask,
         logits := (sam2Decode rs d req.points req.width req.height prev).2.logits,
         allMasks := (sam2Decode rs d req.points req.width req.height prev).2.allMasks,
         selectedMaskIndex :=
           (sam2Decode rs d req.points req.width req.height prev).2.selectedMaskIndex }) := by
  subst hprev
  have h : ensureSession st = (st, id) := by
    simp [ensureSession, hsess]
  unfold segmentCore
  rw [h]

/-- `segmentSingleView` on a ready provider succeeds with the core result. -/
theorem segmentSingleView_ready (rs : Resampler)
    (d : DecodeFeeds → DecoderOutput) (st : ProviderModel) (req : SegRequest)
    (h : st.state = .ready) :
    segmentSingleView rs d st req = .ok (segmentCore rs d st req) := by
  simp [segmentSingleView, h]

/-- C3: in a session with no previous mask, the first `segmentSingleView`
passes `mask_input` = 65536 zeros with `has_mask_input = 0.0` to the
decoder, stores the selected mask's 256×256 logits slice as the session's
`previousMaskLogits`, and the next `segmentSingleView` of the same session
passes exactly those stored logits as `mask_input` with
`has_mask_input = 1.0`. -/
theorem segment_refinement_feeds (rs : Resampler)
    (d : DecodeFeeds → DecoderOutput) (st0 : ProviderModel)
    (req1 req2 : SegRequest) (id : ℕ)
    (hready : st0.state = .ready)
    (hsess : st0.currentImageId = some id)
    (hnoprev : keyLookup st0.previousMaskLogits id = none)
    (hdims : ∀ f, (d f).maskTensor.height = 256 ∧ (d f).maskTensor.width = 256) :
    ∃ st1 feeds1 resp1 st2 feeds2 resp2,
      segmentSingleView rs d st0 req1 = .ok (st1, feeds1, resp1) ∧
      segmentSingleView rs d st1 req2 = .ok (st2, feeds2, resp2) ∧
      feeds1.maskInput = List.replicate (256 * 256) (0 : ℚ) ∧
      feeds1.hasMaskInput = 0 ∧
      resp1.logits.length = 256 * 256 ∧
      resp1.logits = extractLogits (d feeds1).maskTensor.data
        (resp1.selectedMaskIndex * (256 * 256)) (256 * 256) ∧
      keyLookup st1.previousMaskLogits id = some resp1.logits ∧
      feeds2.maskInput = resp1.logits ∧
      feeds2.hasMaskInput = 1 := by
  have hcore1 := segmentCore_eq rs d st0 req1 id none hsess hnoprev
  set dr1 := sam2Decode rs d req1.points req1.width req1.height none with hdr1
  have hlogits_eq : dr1.2.logits =
      extractLogits (d dr1.1).maskTensor.data
        (bestMaskIndexOf (d dr1.1).iou *
          ((d dr1.1).maskTensor.width * (d dr1.1).maskTensor.height))
        ((d dr1.1).maskTensor.width * (d dr1.1).maskTensor.height) := rfl
  have hd1 := hdims dr1.1
  have hwh : (d dr1.1).maskTensor.width * (d dr1.1).maskTensor.height =
      256 * 256 := by
    rw [hd1.1, hd1.2]
  have hlen1 : dr1.2.logits.length = 256 * 256 := by
    rw [hlogits_eq, extractLogits_length, hwh]
  rw [if_pos hlen1] at hcore1
  set st1 : ProviderModel := { st0 with
    previousMaskLogits := keyInsert st0.previousMaskLogits id dr1.2.logits,
    state := ProviderState.ready } with hst1
  have hready1 : st1.state = .ready := rfl
  have hsess1 : st1.currentImageId = some id := hsess
  have hprev1 : keyLookup st1.previousMaskLogits id = some dr1.2.logits :=
    keyLookup_keyInsert_self _ _ _
  have hcore2 := segmentCore_eq rs d st1 req2 id (some dr1.2.logits) hsess1 hprev1
  refine ⟨st1, dr1.1,
    { width := dr1.2.width, height := dr1.2.height, mask := dr1.2.mask,
      logits := dr1.2.logits, allMasks := dr1.2.allMasks,
      selectedMaskIndex := dr1.2.selectedMaskIndex },
    (segmentCore rs d st1 req2).1, (segmentCore rs d st1 req2).2.1,
    (segmentCore rs d st1 req2).2.2, ?_, ?_, ?_, ?_, ?_, ?_, ?_, ?_, ?_⟩
  · rw [segmentSingleView_ready rs d st0 req1 hready, hcore1]
  · rw [segmentSingleView_ready rs d st1 req2 hready1]
  · rfl
  · rfl
  · exact hlen1
  · exact hlogits_eq.trans (by rw [hwh]; rfl)
  · exact hprev1
  · rw [hcore2]
    rfl
  · rw [hcore2]
    rfl

/-- 256×256 three-plane decoder tensor for the C3 witness. -/
def bigTensor : Tensor4 :=
  { data := [1, 2], numMasks := 3, height := 256, width := 256 }

/-- Concrete decoder with 256×256 mask planes for the C3 witness. -/
def refineDecoder : DecodeFeeds → DecoderOutput :=
  fun _ => ⟨bigTensor, some [(1 : ℚ)/2, 3/4, 1/4]⟩

/-- C3 witness: the refinement-feed theorem at a concrete ready provider
(session id 1, no previous mask) and a concrete 256×256 decoder. -/
theorem segment_refinement_feeds_witness :
    ∃ st1 feeds1 resp1 st2 feeds2 resp2,
      segmentSingleView constResampler refineDecoder readyProvider
        witnessRequest = .ok (st1, feeds1, resp1) ∧
      segmentSingleView constResampler refineDecoder st1 witnessRequest =
        .ok (st2, feeds2, resp2) ∧
      feeds1.maskInput = List.replicate (256 * 256) (0 : ℚ) ∧
      feeds1.hasMaskInput = 0 ∧
      resp1.logits.length = 256 * 256 ∧
      resp1.logits = extractLogits (refineDecoder feeds1).maskTensor.data
        (resp1.selectedMaskIndex * (256 * 256)) (256 * 256) ∧
      keyLookup st1.previousMaskLogits 1 = some resp1.logits ∧
      feeds2.maskInput = resp1.logits ∧
      feeds2.hasMaskInput = 1 :=
  segment_refinement_feeds constResampler refineDecoder readyProvider
    witnessRequest witnessRequest 1 rfl rfl rfl (fun _ => ⟨rfl, rfl⟩)
